import Mathlib

/-!
# Verification of the nam-player-tools core

A shallow embedding, in Lean 4, of the core logic of the `nam-player-tools`
repository: the JSON-pointer utilities, the value coercion lexer and the
archive read / rewrite / save operations shared by `nam_config_tool.py` and
`dimehead_bank.py`.

Modelling conventions:

* Python JSON values (the parsed `config.json` tree) are the inductive `Json`
  below; Python `dict`s coming from `json.loads` have unique keys, so objects
  are association lists with first-match lookup and first-match update.
* Python floats are modelled as exact rationals carrying the value of the
  decimal literal; IEEE-754 rounding is abstracted away (no claim compares
  two distinct decimals for float equality).  Non-finite float literals
  (`inf`, `nan`) are outside the model.
* Python exceptions become explicit error values.  `ValueError` raised by the
  pointer functions (the spec calls it `PointerSyntaxError`) is
  `PtrError.malformed`; `KeyError` (the spec calls it
  `PointerResolutionError`) is `PtrError.resolution`.
* `json_pointer_set` mutates its tree in place; the embedding is
  state-passing: it returns the tree as it is after the call together with
  the error, if the call raised one.
* A tar archive is a list of entries; the gzip/tar byte encoding is
  abstracted, so a file on disk is modelled as the decoded entry list and
  the filesystem is a map from path to optional entry list.
-/

/-- A JSON-like value tree, as produced by Python `json.loads`:
mappings are association lists with unique keys (dict insertion order). -/
inductive Json where
  | null
  | bool (b : Bool)
  | int (n : Int)
  | float (q : Rat)
  | str (s : String)
  | arr (l : List Json)
  | obj (m : List (String × Json))

/-- Errors raised by the pointer functions.  `malformed` is Python
`ValueError` (spec: `PointerSyntaxError`); `resolution` is Python `KeyError`
(spec: `PointerResolutionError`). -/
inductive PtrError where
  | malformed (msg : String)
  | resolution (msg : String)
deriving DecidableEq

/-! ## Python primitive string operations -/

/-- The ASCII whitespace stripped by Python `int()` / `float()` around a
numeric literal (unicode spaces are not modelled). -/
def pyIsSpace (c : Char) : Bool :=
  c == ' ' || c == '\t' || c == '\n' || c == '\r' || c == '\x0b' || c == '\x0c'

/-- Value of an ASCII digit. -/
def digitVal (c : Char) : Nat := c.toNat - 48

/-- Consume the rest of a digit run: digits with single underscores strictly
between digits (Python numeric-literal syntax).  Returns `none` when a
non-digit other than a well-placed underscore appears. -/
def digitsAux : List Char → Nat → Option Nat
  | [], a => some a
  | ['_'], _ => none
  | '_' :: c :: rest, a =>
    if c.isDigit then digitsAux rest (a * 10 + digitVal c) else none
  | c :: rest, a =>
    if c.isDigit then digitsAux rest (a * 10 + digitVal c) else none

/-- A full digit run (at least one digit, underscores allowed between
digits), consuming the whole list. -/
def pyDigits : List Char → Option Nat
  | [] => none
  | c :: rest => if c.isDigit then digitsAux rest (digitVal c) else none

/-- Python `int(s)`: optional surrounding whitespace, optional sign, digit
run with underscore separators.  Returns `none` where Python raises
`ValueError`. -/
def pyInt (s : String) : Option Int :=
  let t := ((s.data.dropWhile pyIsSpace).reverse.dropWhile pyIsSpace).reverse
  match t with
  | '+' :: rest => (pyDigits rest).map (fun n => (n : Int))
  | '-' :: rest => (pyDigits rest).map (fun n => -(n : Int))
  | rest => (pyDigits rest).map (fun n => (n : Int))

/-- Python list indexing `l[i]`: a negative index counts from the end;
`none` is an `IndexError`. -/
def pyIndex (l : List Json) (i : Int) : Option Json :=
  let j := if i < 0 then i + l.length else i
  if 0 ≤ j ∧ j < (l.length : Int) then l.get? j.toNat else none

/-- First-match association-list lookup: Python `cur[p]` on a dict with
unique keys. -/
def lookupA : List (String × Json) → String → Option Json
  | [], _ => none
  | (k, w) :: rest, p => if k = p then some w else lookupA rest p

/-- First-match association-list update: Python `cur[p] = v` on a dict with
unique keys (insertion order preserved). -/
def updFirst : List (String × Json) → String → Json → List (String × Json)
  | [], _, _ => []
  | (k, w) :: rest, p, v =>
    if k = p then (k, v) :: rest else (k, w) :: updFirst rest p v

/-- Python `str.replace(ab, r)` for a two-character pattern: left-to-right,
non-overlapping. -/
def repl2 (a b r : Char) : List Char → List Char
  | x :: y :: rest =>
    if x = a ∧ y = b then r :: repl2 a b r rest else x :: repl2 a b r (y :: rest)
  | l => l

/-- RFC6901 segment unescaping as coded:
`p.replace('~1','/').replace('~0','~')`. -/
def unesc (l : List Char) : List Char := repl2 '~' '0' '~' (repl2 '~' '1' '/' l)

/-- Python `str.split(c)` on a character list. -/
def splitChar (c : Char) : List Char → List (List Char)
  | [] => [[]]
  | x :: rest =>
    if x = c then [] :: splitChar c rest
    else
      match splitChar c rest with
      | [] => [[x]]
      | s :: ss => (x :: s) :: ss

/-- Drop one leading `#` if present (`pointer = pointer[1:]` guarded by
`pointer.startswith('#')`). -/
def hashStrip : List Char → List Char
  | '#' :: rest => rest
  | cs => cs

/-- Pointer parsing shared by `json_pointer_get` / `json_pointer_set`
(after their root-pointer check): strip one `#`, require a leading `/`,
split on `/`, unescape each segment.  `none` is the `ValueError`
"Pointer must start with / (after optional #)". -/
def parsePointer (pointer : String) : Option (List String) :=
  match hashStrip pointer.data with
  | '/' :: rest => some ((splitChar '/' rest).map (fun seg => String.mk (unesc seg)))
  | _ => none

/-! ## JSON pointer get / set (`nam_config_tool.py` lines 107-159) -/

/-- The segment-resolution loop of `json_pointer_get`. -/
def getPath (cur : Json) (parts : List String) : Except PtrError Json :=
  match parts with
  | [] => .ok cur
  | p :: rest =>
    match cur with
    | .arr l =>
      match pyInt p with
      | none => .error (.resolution ("List index expected, got " ++ p))
      | some idx =>
        match pyIndex l idx with
        | none => .error (.resolution ("Index " ++ toString idx ++ " out of range"))
        | some x => getPath x rest
    | .obj m =>
      match lookupA m p with
      | none => .error (.resolution ("Key " ++ p ++ " not found"))
      | some x => getPath x rest
    | _ => .error (.resolution ("Cannot descend into non-container at " ++ p))

/-- `json_pointer_get(doc, pointer)` from `nam_config_tool.py`. -/
def json_pointer_get (doc : Json) (pointer : String) : Except PtrError Json :=
  if pointer = "" ∨ pointer = "/" then .ok doc
  else
    match parsePointer pointer with
    | none => .error (.malformed "Pointer must start with / (after optional #)")
    | some parts => getPath doc parts

/-- The traversal loop of `json_pointer_set`, state-passing: returns the
tree as it is after the call (Python mutates `doc` in place) and the raised
error, if any.  The bound check `idx < 0 or idx >= len(cur)` is the one in
the source: unlike `get`, `set` rejects negative indices. -/
def setPath (cur : Json) (parts : List String) (value : Json) : Json × Option PtrError :=
  match parts with
  | [] => (cur, none)
  | p :: rest =>
    match cur with
    | .arr l =>
      match pyInt p with
      | none => (.arr l, some (.resolution ("List index expected, got " ++ p)))
      | some idx =>
        if idx < 0 ∨ (l.length : Int) ≤ idx then
          (.arr l, some (.resolution ("Index " ++ toString idx ++ " out of range")))
        else
          match rest with
          | [] => (.arr (l.set idx.toNat value), none)
          | _ :: _ =>
            let r := setPath (l.getD idx.toNat .null) rest value
            (.arr (l.set idx.toNat r.1), r.2)
    | .obj m =>
      match lookupA m p with
      | none => (.obj m, some (.resolution ("Key " ++ p ++ " not found")))
      | some x =>
        match rest with
        | [] => (.obj (updFirst m p value), none)
        | _ :: _ =>
          let r := setPath x rest value
          (.obj (updFirst m p r.1), r.2)
    | other => (other, some (.resolution ("Cannot descend into non-container at " ++ p)))

/-- `json_pointer_set(doc, pointer, value)` from `nam_config_tool.py`,
state-passing (first component: the tree after the call). -/
def json_pointer_set (doc : Json) (pointer : String) (value : Json) :
    Json × Option PtrError :=
  if pointer = "" ∨ pointer = "/" then
    (doc, some (.malformed "Refusing to overwrite root with scalar"))
  else
    match parsePointer pointer with
    | none => (doc, some (.malformed "Pointer must start with / (after optional #)"))
    | some parts => setPath doc parts value

/-! ## Value coercion (`nam_config_tool.py` lines 162-181) -/

/-- Maximal run of digits-with-underscores: returns the accumulated value,
the digit count so far and the unconsumed rest (stopping before a
misplaced underscore). -/
def scanRunAux : List Char → Nat → Nat → Nat × Nat × List Char
  | '_' :: c :: rest, a, n =>
    if c.isDigit then scanRunAux rest (a * 10 + digitVal c) (n + 1)
    else (a, n, '_' :: c :: rest)
  | c :: rest, a, n =>
    if c.isDigit then scanRunAux rest (a * 10 + digitVal c) (n + 1)
    else (a, n, c :: rest)
  | [], a, n => (a, n, [])

/-- Maximal (possibly empty) digit run at the front of a character list. -/
def scanRun : List Char → Nat × Nat × List Char
  | c :: rest => if c.isDigit then scanRunAux rest (digitVal c) 1 else (0, 0, c :: rest)
  | [] => (0, 0, [])

/-- `10^k` for an integer `k`, as a rational (kept `Nat`-powered so that
concrete values evaluate by `decide`). -/
def pow10 (k : Int) : Rat :=
  if 0 ≤ k then ((10 : Rat) ^ k.toNat) else 1 / ((10 : Rat) ^ (-k).toNat)

/-- Value of a decimal mantissa `ip . fp` (with `fc` fractional digits)
scaled by `10^e`. -/
def mantVal (ip fp fc : Nat) (e : Int) : Rat :=
  ((ip * 10 ^ fc + fp : Nat) : Rat) * pow10 (e - (fc : Int))

/-- The exponent part of a Python float literal (everything after the
`e`): optional sign, then a mandatory digit run. -/
def expPart (cs : List Char) : Option Int :=
  match cs with
  | '+' :: rest => (pyDigits rest).map (fun n => (n : Int))
  | '-' :: rest => (pyDigits rest).map (fun n => -(n : Int))
  | rest => (pyDigits rest).map (fun n => (n : Int))

/-- The body of a Python float literal after the optional sign:
`digits [. digits] [e exp]` with at least one mantissa digit. -/
def pyFloatAfterSign (cs : List Char) : Option Rat :=
  let s1 := scanRun cs
  let ip := s1.1; let ic := s1.2.1
  match s1.2.2 with
  | '.' :: r2 =>
    let s2 := scanRun r2
    let fp := s2.1; let fc := s2.2.1
    if ic + fc = 0 then none
    else
      match s2.2.2 with
      | [] => some (mantVal ip fp fc 0)
      | 'e' :: r4 => (expPart r4).map (mantVal ip fp fc)
      | 'E' :: r4 => (expPart r4).map (mantVal ip fp fc)
      | _ => none
  | [] => if ic = 0 then none else some ((ip : Rat))
  | 'e' :: r4 => if ic = 0 then none else (expPart r4).map (fun e => (ip : Rat) * pow10 e)
  | 'E' :: r4 => if ic = 0 then none else (expPart r4).map (fun e => (ip : Rat) * pow10 e)
  | _ => none

/-- Python `float(s)` on finite decimal literals, as the exact rational
value of the literal (IEEE rounding and the non-finite literals `inf` /
`nan` are outside the model). -/
def pyFloat (s : String) : Option Rat :=
  let t := ((s.data.dropWhile pyIsSpace).reverse.dropWhile pyIsSpace).reverse
  match t with
  | '+' :: rest => pyFloatAfterSign rest
  | '-' :: rest => (pyFloatAfterSign rest).map (fun q => -q)
  | rest => pyFloatAfterSign rest

/-- Whether the character list `pre` is an initial segment of `s.data`
(Python `s.startswith(...)`). -/
def listStarts : List Char → List Char → Bool
  | [], _ => true
  | _ :: _, [] => false
  | p :: ps, c :: cs => if p = c then listStarts ps cs else false

/-- ASCII lower-casing of one character (Python `str.lower()` restricted
to ASCII, the only case the keyword comparison needs). -/
def pyCharLower (c : Char) : Char :=
  if 'A' ≤ c ∧ c ≤ 'Z' then Char.ofNat (c.toNat + 32) else c

/-- Python `raw.lower()` (ASCII). -/
def pyToLower (s : String) : String := String.mk (s.data.map pyCharLower)

/-- `coerce_value(raw)` from `nam_config_tool.py`: bool and null keywords,
then an int attempt — skipped entirely when the string has a leading zero
(`raw.startswith('0') and raw != '0' and not raw.startswith('0.')`) — then
a float attempt, else the literal string.  Note the leading-zero guard only
skips the `int` parse; execution still falls through to `float`. -/
def coerce_value (raw : String) : Json :=
  let lowered := pyToLower raw
  if lowered = "true" then .bool true
  else if lowered = "false" then .bool false
  else if lowered = "null" then .null
  else
    let skipInt := listStarts ['0'] raw.data && decide (raw ≠ "0") && !(listStarts ['0', '.'] raw.data)
    match (if skipInt then none else pyInt raw) with
    | some i => .int i
    | none =>
      match pyFloat raw with
      | some q => .float q
      | none => .str raw

/-! ## Archives and the bank filesystem model
(`dimehead_bank.py`, `NPBBank.replace_config` / `NPBBank.read_config`) -/

/-- Classification of a tar member as used by the code
(`member.isdir()` / `member.isfile()` / anything else). -/
inductive EKind where
  | file
  | dir
  | other
deriving DecidableEq

/-- One tar archive member: its header fields (name, declared size, mode,
mtime standing in for the remaining metadata, kind) and, for regular
files, the data bytes stored for it in the archive. -/
structure Entry where
  name : String
  size : Nat
  mode : Nat
  mtime : Nat
  kind : EKind
  content : List Nat
deriving DecidableEq

/-- The configuration entry base name. -/
def CONFIG_NAME : String := "config.json"

/-- Characters stripped by `member.name.lstrip('./')` — a character *set*,
not a single prefix. -/
def isDotSlash (c : Char) : Bool := c == '.' || c == '/'

/-- Python `name.lstrip('./')`: drop every leading `.` or `/` character. -/
def pyLstrip (s : String) : String := String.mk (s.data.dropWhile isDotSlash)

/-- The skip test of the rewrite loop and of the `load_bank` member loop:
an entry survives iff its `lstrip('./')`-normalized name differs from
`config.json`. -/
def keepEntry (m : Entry) : Bool := decide (pyLstrip m.name ≠ CONFIG_NAME)

/-- `tf_out.addfile(member, extracted)`: the header is copied verbatim;
`extractfile` is only called for regular files, so a non-file member
carries no data. -/
def copyEntry (m : Entry) : Entry :=
  if m.kind = EKind.file then m else { m with content := [] }

/-- The freshly appended configuration entry:
`TarInfo(name='./config.json')` (default mode `0o644`, mtime 0) with
`info.size = len(data)`. -/
def newConfigEntry (data : List Nat) : Entry :=
  { name := "./" ++ CONFIG_NAME, size := data.length, mode := 420, mtime := 0,
    kind := EKind.file, content := data }

/-- The archive rewrite shared by `NPBBank.replace_config`, `save_bank` and
`save_bank_as`: copy every surviving member in order, then append the new
configuration entry whose bytes are `data` (the serialized document). -/
def rewriteEntries (src : List Entry) (data : List Nat) : List Entry :=
  (src.filter keepEntry).map copyEntry ++ [newConfigEntry data]

/-- The `type` label computed in the `load_bank` member loop. -/
def kindLabel : EKind → String
  | .dir => "dir"
  | .file => "file"
  | .other => "other"

/-- One element of `Bank.assets`. -/
structure Asset where
  name : String
  size : Nat
  type : String
deriving DecidableEq

/-- The member listing built by `load_bank` (lines 87-94): every entry
except the configuration entry, in archive order, as `(name, size, type)`
descriptors. -/
def assetsOf (src : List Entry) : List Asset :=
  (src.filter keepEntry).map (fun m => { name := m.name, size := m.size, type := kindLabel m.kind })

/-- `tarfile.getmember(name)`: exact-name lookup returning the *last*
occurrence in the archive. -/
def getmember (a : List Entry) (n : String) : Option Entry :=
  a.reverse.find? (fun e => decide (e.name = n))

/-- `tf.extractfile(member).read()`: the stored bytes for a regular file;
`none` models the crash on a non-file member (`extractfile` returns
`None`). -/
def extractBytes (m : Entry) : Option (List Nat) :=
  if m.kind = EKind.file then some m.content else none

/-- The configuration-entry lookup of `read_config` / `load_bank`: try
`./config.json`, then bare `config.json`; `none` is any failure. -/
def readConfigEntry (a : List Entry) : Option (List Nat) :=
  match getmember a ("./" ++ CONFIG_NAME) with
  | some m => extractBytes m
  | none =>
    match getmember a CONFIG_NAME with
    | some m => extractBytes m
    | none => none

/-! ## The filesystem model for `save_bank` (`dimehead_bank.py` lines 100-124) -/

/-- The filesystem: a map from path to file content, a file being the
decoded entry list of the gzip-tar archive stored there. -/
def FSState := String → Option (List Entry)

/-- Point update of the filesystem (`none` deletes the file). -/
def fsSet (fs : FSState) (k : String) (v : Option (List Entry)) : FSState :=
  fun x => if x = k then v else fs x

/-- Fault injection for one `save_bank` call: `readErr` is a failure of
`tarfile.open(path, 'r:gz')` / `getmembers()` (corrupt stream); `writeErr k`
is an I/O failure after `k` output operations, leaving the temporary file
partially written; `backupErr j` is a `shutil.copy2` failure that leaves
`j` at the backup path (`none`: not created).  A fault fires only when the
corresponding operation is actually executed. -/
inductive SaveFault where
  | ok
  | readErr
  | writeErr (k : Nat)
  | backupErr (j : Option (List Entry))

/-- The tail of a successful `save_bank`: create the backup if requested
and absent, then `os.replace(tmp, path)` (atomic rename: `path` gets the
temporary file content, `tmp` disappears, so the trailing
`if os.path.exists(tmp_path)` cleanup is a no-op). -/
def finishReplace (fs2 : FSState) (path tmp : String) (backup : Bool) : FSState × Bool :=
  let fs3 := if backup ∧ (fs2 (path ++ ".bak")).isNone then
               fsSet fs2 (path ++ ".bak") (fs2 path)
             else fs2
  (fsSet (fsSet fs3 path (fs3 tmp)) tmp none, true)

/-- `save_bank(bank, backup)` from `dimehead_bank.py` as a filesystem
transition.  `path` is `bank.path`, `cfgData` the serialized configuration
bytes (`json.dumps(bank.config, indent=4).encode()`), `tmp` the fresh
temporary path produced by `mkstemp` in the same directory (freshness is a
hypothesis of the theorems).  Every failure path runs the `finally` block,
which removes the temporary file; the boolean result is `true` iff the
call returned without raising. -/
def save_bank (fs : FSState) (path tmp : String) (cfgData : List Nat)
    (backup : Bool) (fault : SaveFault) : FSState × Bool :=
  let fs1 := fsSet fs tmp (some [])
  match fault with
  | .readErr => (fsSet fs1 tmp none, false)
  | .writeErr k =>
    match fs1 path with
    | none => (fsSet fs1 tmp none, false)
    | some src =>
      let fs2 := fsSet fs1 tmp (some ((rewriteEntries src cfgData).take k))
      (fsSet fs2 tmp none, false)
  | .backupErr j =>
    match fs1 path with
    | none => (fsSet fs1 tmp none, false)
    | some src =>
      let fs2 := fsSet fs1 tmp (some (rewriteEntries src cfgData))
      if backup ∧ (fs2 (path ++ ".bak")).isNone then
        (fsSet (fsSet fs2 (path ++ ".bak") j) tmp none, false)
      else
        finishReplace fs2 path tmp backup
  | .ok =>
    match fs1 path with
    | none => (fsSet fs1 tmp none, false)
    | some src =>
      let fs2 := fsSet fs1 tmp (some (rewriteEntries src cfgData))
      finishReplace fs2 path tmp backup

/-- Python-`int`-parsed, in-range condition under which a sequence-descent
segment is accepted by `set`: a (possibly signed) integer `i` with
`0 <= i < len`. -/
def segOkSet (l : List Json) (p : String) : Bool :=
  match pyInt p with
  | some i => decide (0 ≤ i ∧ i < (l.length : Int))
  | none => false

/-- Condition under which a sequence-descent segment is accepted by `get`:
a (possibly signed) integer `i` with `-len <= i < len` (Python indexing
wraps negative indices). -/
def segOkGet (l : List Json) (p : String) : Bool :=
  match pyInt p with
  | some i => decide (-(l.length : Int) ≤ i ∧ i < (l.length : Int))
  | none => false

/-- Whether an optional pointer error is a `KeyError`
(`PointerResolutionError`). -/
def isResolution : Option PtrError → Bool
  | some (PtrError.resolution _) => true
  | _ => false

/-- Whether a `get` outcome is a `KeyError` (`PointerResolutionError`). -/
def isResolutionE : Except PtrError Json → Bool
  | .error (PtrError.resolution _) => true
  | _ => false

/-- A sample regular-file archive member (used to instantiate theorems
with hypotheses at concrete inputs). -/
def sampleEntry : Entry :=
  { name := "amp.nam", size := 2, mode := 493, mtime := 5, kind := EKind.file, content := [7, 8] }

/-- A sample directory archive member. -/
def sampleDir : Entry :=
  { name := "models", size := 0, mode := 493, mtime := 5, kind := EKind.dir, content := [] }

/-- A member whose name is neither `config.json` nor `./config.json`, yet
whose `lstrip('./')`-normalized name is `config.json`. -/
def hiddenConfigEntry : Entry :=
  { name := ".config.json", size := 2, mode := 420, mtime := 5, kind := EKind.file, content := [3, 4] }

/-- A sample filesystem holding one bank archive at `bank.npb`. -/
def sampleFS : FSState :=
  fun x => if x = "bank.npb" then some [sampleEntry, sampleDir] else none

/-! ## Helper lemmas -/

theorem lookupA_updFirst : ∀ (m : List (String × Json)) (p : String) (x : Json),
    lookupA m p = some x → updFirst m p x = m
  | [], p, x, h => by simp [lookupA] at h
  | (k, w) :: rest, p, x, h => by
    by_cases hk : k = p
    · simp [lookupA, hk] at h
      simp [updFirst, hk, h]
    · simp [lookupA, hk] at h
      simp [updFirst, hk, lookupA_updFirst rest p x h]

theorem list_set_get? {α : Type} : ∀ (l : List α) (n : Nat) (x : α),
    l.get? n = some x → l.set n x = l
  | [], n, x, h => by simp at h
  | a :: t, 0, x, h => by
    simp at h
    simp [h]
  | a :: t, n + 1, x, h => by
    rw [List.get?_cons_succ] at h
    show a :: t.set n x = a :: t
    rw [list_set_get? t n x h]

theorem get?_getD {α : Type} : ∀ (l : List α) (n : Nat) (d : α),
    n < l.length → l.get? n = some (l.getD n d)
  | a :: t, 0, d, _ => by simp [List.getD]
  | a :: t, n + 1, d, h => by
    rw [List.get?_cons_succ]
    have h2 : (a :: t).getD (n + 1) d = t.getD n d := by simp [List.getD]
    rw [h2]
    exact get?_getD t n d (by simp at h; omega)

theorem pyIndex_in_range (l : List Json) (idx : Int)
    (h : ¬(idx < 0 ∨ (l.length : Int) ≤ idx)) :
    pyIndex l idx = l.get? idx.toNat := by
  simp only [pyIndex]
  rw [if_neg (show ¬ idx < 0 by omega),
    if_pos (show (0 : Int) ≤ idx ∧ idx < (l.length : Int) by omega)]

theorem pyIndex_eq_none (l : List Json) (i : Int)
    (h : i < -(l.length : Int) ∨ (l.length : Int) ≤ i) : pyIndex l i = none := by
  simp only [pyIndex]
  split_ifs with h1 h2 <;> first | rfl | (exfalso; omega)

/-! ## Pointer round-trip and failure-is-harmless lemmas -/

theorem get_set_core : ∀ (parts : List String) (cur v : Json),
    getPath cur parts = .ok v → (setPath cur parts v).1 = cur := by
  intro parts
  induction parts with
  | nil =>
    intro cur v h
    simp [getPath] at h
    simp [setPath, h]
  | cons p rest ih =>
    intro cur v h
    cases cur with
    | arr l =>
      simp only [getPath] at h
      cases hi : pyInt p with
      | none => simp [hi] at h
      | some idx =>
        simp only [hi] at h
        cases hx : pyIndex l idx with
        | none => simp [hx] at h
        | some x =>
          simp only [hx] at h
          simp only [setPath, hi]
          by_cases hb : idx < 0 ∨ (l.length : Int) ≤ idx
          · simp [hb]
          · have hget : l.get? idx.toNat = some x := by
              rw [← pyIndex_in_range l idx hb]; exact hx
            have hD : l.getD idx.toNat Json.null = x := by
              have := get?_getD l idx.toNat Json.null (by
                have := List.get?_eq_some.mp hget
                omega)
              rw [hget] at this
              exact (Option.some.injEq _ _).mp this.symm
            cases rest with
            | nil =>
              simp [getPath] at h
              rw [if_neg hb, ← h]
              exact congrArg Json.arr (list_set_get? l idx.toNat x hget)
            | cons q qs =>
              rw [if_neg hb]
              simp only [hD, ih x v h]
              exact congrArg Json.arr (list_set_get? l idx.toNat x hget)
    | obj m =>
      simp only [getPath] at h
      cases hk : lookupA m p with
      | none => simp [hk] at h
      | some x =>
        simp only [hk] at h
        simp only [setPath, hk]
        cases rest with
        | nil =>
          simp [getPath] at h
          rw [← h]
          exact congrArg Json.obj (lookupA_updFirst m p x hk)
        | cons q qs =>
          simp only [ih x v h]
          exact congrArg Json.obj (lookupA_updFirst m p x hk)
    | null => simp [getPath] at h
    | bool b => simp [getPath] at h
    | int n => simp [getPath] at h
    | float q => simp [getPath] at h
    | str s => simp [getPath] at h

theorem set_err_core : ∀ (parts : List String) (cur v : Json),
    ((setPath cur parts v).2).isSome = true → (setPath cur parts v).1 = cur := by
  intro parts
  induction parts with
  | nil => intro cur v h; simp [setPath] at h
  | cons p rest ih =>
    intro cur v h
    cases cur with
    | arr l =>
      simp only [setPath] at h ⊢
      cases hi : pyInt p with
      | none => simp [hi]
      | some idx =>
        simp only [hi] at h ⊢
        by_cases hb : idx < 0 ∨ (l.length : Int) ≤ idx
        · simp [hb]
        · simp only [if_neg hb] at h ⊢
          cases rest with
          | nil => simp at h
          | cons q qs =>
            have hn : idx.toNat < l.length := by omega
            have hget : l.get? idx.toNat = some (l.getD idx.toNat Json.null) :=
              get?_getD l idx.toNat Json.null hn
            have h2 : ((setPath (l.getD idx.toNat Json.null) (q :: qs) v).2).isSome = true := by
              cases hc : (setPath (l.getD idx.toNat Json.null) (q :: qs) v).2 with
              | none => rw [hc] at h; simp at h
              | some e => simp
            rw [ih (l.getD idx.toNat Json.null) v h2]
            exact congrArg Json.arr (list_set_get? l idx.toNat _ hget)
    | obj m =>
      simp only [setPath] at h ⊢
      cases hk : lookupA m p with
      | none => simp [hk]
      | some x =>
        simp only [hk] at h ⊢
        cases rest with
        | nil => simp at h
        | cons q qs =>
          have h2 : ((setPath x (q :: qs) v).2).isSome = true := by
            cases hc : (setPath x (q :: qs) v).2 with
            | none => rw [hc] at h; simp at h
            | some e => simp
          rw [ih x v h2]
          exact congrArg Json.obj (lookupA_updFirst m p x hk)
    | null => simp [setPath]
    | bool b => simp [setPath]
    | int n => simp [setPath]
    | float q => simp [setPath]
    | str s => simp [setPath]

/-! ## Claim theorems: pointers and coercion -/

/-- C6: for every tree and every pointer that `get` resolves successfully,
writing back the value read there leaves the tree unchanged — `set` either
replaces the addressed element with itself, or (root pointer, negative
index) raises before mutating anything; in every case the tree after the
call is the original one. -/
theorem pointer_set_get_noop (doc : Json) (pointer : String) (v : Json)
    (h : json_pointer_get doc pointer = .ok v) :
    (json_pointer_set doc pointer v).1 = doc := by
  by_cases hr : pointer = "" ∨ pointer = "/"
  · simp [json_pointer_set, hr]
  · simp only [json_pointer_get, if_neg hr] at h
    simp only [json_pointer_set, if_neg hr]
    cases hp : parsePointer pointer with
    | none => rw [hp] at h
    | some parts => rw [hp] at h; exact get_set_core parts doc v h

/-- Witness for C6 at the pointer `/a` on `{"a": 1}`. -/
theorem pointer_set_get_noop_witness :
    json_pointer_get (Json.obj [("a", Json.int 1)]) "/a" = .ok (Json.int 1)
    ∧ (json_pointer_set (Json.obj [("a", Json.int 1)]) "/a" (Json.int 1)).1
        = Json.obj [("a", Json.int 1)] :=
  ⟨rfl, pointer_set_get_noop _ "/a" _ rfl⟩

/-- C10: whenever `json_pointer_set` raises any of its errors — malformed
pointer, non-integer or out-of-range sequence index, missing mapping key,
descent into a scalar — the tree after the call is exactly the tree
before it: the single mutation happens only at the final segment, after
the whole traversal has succeeded. -/
theorem pointer_set_fail_unchanged (doc : Json) (pointer : String) (value : Json)
    (h : ((json_pointer_set doc pointer value).2).isSome = true) :
    (json_pointer_set doc pointer value).1 = doc := by
  by_cases hr : pointer = "" ∨ pointer = "/"
  · simp [json_pointer_set, hr]
  · simp only [json_pointer_set, if_neg hr] at h ⊢
    cases hp : parsePointer pointer with
    | none => rfl
    | some parts => rw [hp] at h; exact set_err_core parts doc value h

/-- Witness for C10: setting the missing key `/b` on `{"a": 1}` raises and
leaves the tree untouched. -/
theorem pointer_set_fail_unchanged_witness :
    ((json_pointer_set (Json.obj [("a", Json.int 1)]) "/b" Json.null).2).isSome = true
    ∧ (json_pointer_set (Json.obj [("a", Json.int 1)]) "/b" Json.null).1
        = Json.obj [("a", Json.int 1)] :=
  ⟨rfl, pointer_set_fail_unchanged _ "/b" _ rfl⟩

/-- C7 counterexample: the claim says `get` fails with
`PointerResolutionError` whenever a sequence segment is not a non-negative
in-range integer, but `get` on `[10, 20]` with the pointer whose single
segment is `-1` succeeds and returns the last element (Python negative
indexing in `cur[idx]`, which only `set` guards against). -/
theorem get_negative_index_succeeds :
    json_pointer_get (Json.arr [Json.int 10, Json.int 20]) "/-1" = .ok (Json.int 20) := rfl

/-- C7 (amended): at a sequence node, `set` fails with
`PointerResolutionError` (and leaves the node unchanged) unless the
segment parses as a Python int in `[0, len)`; `get` fails with
`PointerResolutionError` unless the segment parses as a Python int in
`[-len, len)` (negative indices count from the end); in particular
`get(tree, "/presets/999/name")` fails with `PointerResolutionError`
whenever fewer than 1000 presets exist. -/
theorem sequence_descent_errors :
    (∀ (l : List Json) (v : Json) (p : String) (rest : List String),
        segOkSet l p = false →
        (setPath (Json.arr l) (p :: rest) v).1 = Json.arr l
        ∧ isResolution (setPath (Json.arr l) (p :: rest) v).2 = true)
    ∧ (∀ (l : List Json) (p : String) (rest : List String),
        segOkGet l p = false →
        isResolutionE (getPath (Json.arr l) (p :: rest)) = true)
    ∧ (∀ (m : List (String × Json)) (l : List Json),
        lookupA m "presets" = some (Json.arr l) → l.length < 1000 →
        json_pointer_get (Json.obj m) "/presets/999/name"
          = .error (PtrError.resolution "Index 999 out of range")) := by
  refine ⟨?_, ?_, ?_⟩
  · intro l v p rest h
    simp only [segOkSet] at h
    cases hi : pyInt p with
    | none => simp [setPath, hi, isResolution]
    | some i =>
      rw [hi] at h
      simp only [decide_eq_false_iff_not] at h
      have hb : i < 0 ∨ (l.length : Int) ≤ i := by omega
      simp [setPath, hi, if_pos hb, isResolution]
  · intro l p rest h
    simp only [segOkGet] at h
    cases hi : pyInt p with
    | none => simp [getPath, hi, isResolutionE]
    | some i =>
      rw [hi] at h
      simp only [decide_eq_false_iff_not] at h
      have hx : pyIndex l i = none := pyIndex_eq_none l i (by omega)
      simp [getPath, hi, hx, isResolutionE]
  · intro m l hm hl
    have hroot : ¬(("/presets/999/name" : String) = "" ∨ ("/presets/999/name" : String) = "/") := by
      decide
    have hx : pyIndex l 999 = none := pyIndex_eq_none l 999 (by omega)
    simp only [json_pointer_get, if_neg hroot]
    rw [show parsePointer "/presets/999/name" = some ["presets", "999", "name"] from rfl]
    simp only [getPath, hm, show pyInt "999" = some 999 from rfl, hx]
    rfl

/-- Witness for C7 (amended): a non-numeric segment on a one-element
sequence for `set`, an out-of-range negative segment for `get`, and a
1000-th preset lookup on an empty presets list. -/
theorem sequence_descent_errors_witness :
    (segOkSet [Json.int 5] "x" = false
      ∧ (setPath (Json.arr [Json.int 5]) ["x"] Json.null).1 = Json.arr [Json.int 5]
      ∧ isResolution (setPath (Json.arr [Json.int 5]) ["x"] Json.null).2 = true)
    ∧ (segOkGet [Json.int 5] "-2" = false
      ∧ isResolutionE (getPath (Json.arr [Json.int 5]) ["-2"]) = true)
    ∧ (lookupA [("presets", Json.arr [])] "presets" = some (Json.arr [])
      ∧ json_pointer_get (Json.obj [("presets", Json.arr [])]) "/presets/999/name"
          = .error (PtrError.resolution "Index 999 out of range")) :=
  ⟨⟨rfl, sequence_descent_errors.1 [Json.int 5] Json.null "x" [] rfl⟩,
   ⟨rfl, sequence_descent_errors.2.1 [Json.int 5] "-2" [] rfl⟩,
   ⟨rfl, sequence_descent_errors.2.2 [("presets", Json.arr [])] [] rfl (by decide)⟩⟩

/-- C8 counterexample: the claim says a leading `#` is stripped before any
parsing, so `get(tree, "#")` should behave like `get(tree, "")` and return
the whole tree; in the code the root-pointer check runs *before* the `#`
strip, so `get(tree, "#")` raises the `ValueError` (`PointerSyntaxError`)
while `get(tree, "")` returns the tree. -/
theorem hash_root_counterexample :
    json_pointer_get (Json.obj [("a", Json.int 1)]) "#"
      = .error (PtrError.malformed "Pointer must start with / (after optional #)")
    ∧ json_pointer_get (Json.obj [("a", Json.int 1)]) ""
      = .ok (Json.obj [("a", Json.int 1)]) :=
  ⟨rfl, rfl⟩

/-- C8 (amended): `get` returns the whole tree for the empty pointer and
for `/`; the `#` alias is honored only for pointers that go on with `/`:
for every `p` that starts with `/` and is not just `/`,
`get(tree, "#" + p) = get(tree, p)`.  Because the root check precedes the
`#` strip, `get(tree, "#")` instead raises the `ValueError`
(`PointerSyntaxError`), and `get(tree, "#/")` is parsed as a lookup of the
empty-string key rather than returning the whole tree: it resolves the
single segment `""` against the root node, returning the value stored
under the key `""` when a mapping has one and raising the `KeyError`
(`PointerResolutionError`) when it does not. -/
theorem hash_alias_and_root :
    (∀ t : Json, json_pointer_get t "" = .ok t)
    ∧ (∀ t : Json, json_pointer_get t "/" = .ok t)
    ∧ (∀ (t : Json) (p : String) (r : List Char), p.data = '/' :: r → p ≠ "/" →
        json_pointer_get t ("#" ++ p) = json_pointer_get t p)
    ∧ (∀ t : Json, json_pointer_get t "#"
        = .error (PtrError.malformed "Pointer must start with / (after optional #)"))
    ∧ (∀ t : Json, json_pointer_get t "#/" = getPath t [""])
    ∧ (∀ (m : List (String × Json)) (x : Json), lookupA m "" = some x →
        json_pointer_get (Json.obj m) "#/" = .ok x)
    ∧ (∀ m : List (String × Json), lookupA m "" = none →
        json_pointer_get (Json.obj m) "#/"
          = .error (PtrError.resolution ("Key " ++ "" ++ " not found"))) := by
  refine ⟨fun t => by simp [json_pointer_get], fun t => by simp [json_pointer_get],
    ?_, fun t => rfl, fun t => rfl, ?_, ?_⟩
  case refine_2 =>
    intro m x hk
    rw [show json_pointer_get (Json.obj m) "#/" = getPath (Json.obj m) [""] from rfl]
    simp [getPath, hk]
  case refine_3 =>
    intro m hk
    rw [show json_pointer_get (Json.obj m) "#/" = getPath (Json.obj m) [""] from rfl]
    simp [getPath, hk]
  intro t p r h hp
  have hdata : ("#" ++ p).data = '#' :: p.data := by
    rw [String.data_append]
    rfl
  have hA : ¬(("#" ++ p) = "" ∨ ("#" ++ p) = "/") := by
    rintro (hc | hc) <;> simpa [hdata] using congrArg String.data hc
  have hB : ¬(p = "" ∨ p = "/") := by
    rintro (hc | hc)
    · rw [hc] at h; exact absurd h (by simp [String.data])
    · exact hp hc
  simp only [json_pointer_get, if_neg hA, if_neg hB]
  have hPP : parsePointer ("#" ++ p) = parsePointer p := by
    simp only [parsePointer, hdata]
    rw [show hashStrip ('#' :: p.data) = p.data from rfl, h,
      show hashStrip ('/' :: r) = '/' :: r from rfl]
  rw [hPP]

/-- Witness for C8 (amended): the alias identity at `p = "/a"`, plus the
`#/` empty-key lookup on a mapping that has the key `""` and on one that
does not. -/
theorem hash_alias_and_root_witness :
    ("/a" : String).data = '/' :: ['a']
    ∧ ("/a" : String) ≠ "/"
    ∧ json_pointer_get (Json.obj []) ("#" ++ "/a") = json_pointer_get (Json.obj []) "/a"
    ∧ lookupA [("", Json.int 7)] "" = some (Json.int 7)
    ∧ json_pointer_get (Json.obj [("", Json.int 7)]) "#/" = .ok (Json.int 7)
    ∧ lookupA ([] : List (String × Json)) "" = none
    ∧ json_pointer_get (Json.obj []) "#/"
        = .error (PtrError.resolution ("Key " ++ "" ++ " not found")) :=
  ⟨rfl, by decide, hash_alias_and_root.2.2.1 (Json.obj []) "/a" ['a'] rfl (by decide),
   rfl, hash_alias_and_root.2.2.2.2.2.1 [("", Json.int 7)] (Json.int 7) rfl,
   rfl, hash_alias_and_root.2.2.2.2.2.2 [] rfl⟩

/-- C9: the coercion table.  Every row of the spec table holds except the
leading-zero one: the guard `raw.startswith('0') and raw != '0' and not
raw.startswith('0.')` only skips the *int* parse, after which
`float("042")` succeeds, so the code returns the float `42.0` where both
the spec and the code comment ("keep as string") require the string
`"042"`. -/
theorem coerce_value_table :
    coerce_value "true" = Json.bool true
    ∧ coerce_value "3.14" = Json.float (157 / 50)
    ∧ coerce_value "7" = Json.int 7
    ∧ coerce_value "null" = Json.null
    ∧ coerce_value "hello" = Json.str "hello"
    ∧ coerce_value "042" = Json.float 42 := by
  refine ⟨rfl, ?_, rfl, rfl, rfl, ?_⟩
  · have h : coerce_value "3.14" = Json.float (mantVal 3 14 2 0) := rfl
    rw [h]
    exact congrArg Json.float (by norm_num [mantVal, pow10, show Int.toNat 2 = 2 from rfl])
  · have h : coerce_value "042" = Json.float ((42 : Nat) : Rat) := rfl
    rw [h]
    exact congrArg Json.float (by norm_num)

/-! ## Helper lemmas: archives and the filesystem -/

@[simp]
theorem fsSet_same (fs : FSState) (k : String) (v : Option (List Entry)) :
    fsSet fs k v k = v := by simp [fsSet]

theorem fsSet_other (fs : FSState) (k : String) (v : Option (List Entry))
    (x : String) (h : x ≠ k) : fsSet fs k v x = fs x := by simp [fsSet, h]

theorem ne_bak (s : String) : s ≠ s ++ ".bak" := by
  intro h
  have hlen := congrArg String.length h
  rw [String.length_append] at hlen
  have h4 : (".bak" : String).length = 4 := rfl
  omega

theorem copyEntry_name (e : Entry) : (copyEntry e).name = e.name := by
  simp only [copyEntry]
  split <;> rfl

theorem keepEntry_copyEntry (e : Entry) : keepEntry (copyEntry e) = keepEntry e := by
  simp only [keepEntry, copyEntry_name]

theorem keepEntry_newConfig (data : List Nat) : keepEntry (newConfigEntry data) = false := rfl

theorem copyEntry_eq_self (e : Entry) (h : e.kind ≠ EKind.file → e.content = []) :
    copyEntry e = e := by
  by_cases hk : e.kind = EKind.file
  · simp [copyEntry, hk]
  · obtain ⟨n, sz, mo, mt, k, ct⟩ := e
    have hc : ct = [] := h hk
    simp [copyEntry, hk, hc]

@[simp]
theorem fsSet_fsSet (fs : FSState) (k : String) (a b : Option (List Entry)) :
    fsSet (fsSet fs k a) k b = fsSet fs k b := by
  funext x
  by_cases h : x = k <;> simp [fsSet, h]

theorem save_bank_readErr (fs : FSState) (path tmp : String) (data : List Nat)
    (backup : Bool) :
    save_bank fs path tmp data backup .readErr = (fsSet fs tmp none, false) := by
  simp [save_bank]

theorem save_bank_missing (fs : FSState) (path tmp : String) (data : List Nat)
    (backup : Bool) (fault : SaveFault) (hsrc : fs path = none) (h1 : tmp ≠ path) :
    save_bank fs path tmp data backup fault = (fsSet fs tmp none, false) := by
  have hs1 : fsSet fs tmp (some []) path = none := by
    rw [fsSet_other fs tmp _ path (Ne.symm h1), hsrc]
  cases fault <;> simp [save_bank, hs1]

theorem save_bank_writeErr (fs : FSState) (path tmp : String) (data : List Nat)
    (backup : Bool) (k : Nat) (src : List Entry)
    (h1 : tmp ≠ path) (hsrc : fs path = some src) :
    save_bank fs path tmp data backup (.writeErr k) = (fsSet fs tmp none, false) := by
  have hs1 : fsSet fs tmp (some []) path = some src := by
    rw [fsSet_other fs tmp _ path (Ne.symm h1), hsrc]
  simp [save_bank, hs1]

theorem save_bank_ok (fs : FSState) (path tmp : String) (data : List Nat)
    (backup : Bool) (src : List Entry)
    (h1 : tmp ≠ path) (hsrc : fs path = some src) :
    save_bank fs path tmp data backup .ok
      = finishReplace (fsSet fs tmp (some (rewriteEntries src data))) path tmp backup := by
  have hs1 : fsSet fs tmp (some []) path = some src := by
    rw [fsSet_other fs tmp _ path (Ne.symm h1), hsrc]
  simp [save_bank, hs1]

theorem save_bank_backupErr (fs : FSState) (path tmp : String) (data : List Nat)
    (backup : Bool) (j : Option (List Entry)) (src : List Entry)
    (h1 : tmp ≠ path) (hsrc : fs path = some src) :
    save_bank fs path tmp data backup (.backupErr j)
      = if backup ∧ ((fsSet fs tmp (some (rewriteEntries src data))) (path ++ ".bak")).isNone then
          (fsSet (fsSet (fsSet fs tmp (some (rewriteEntries src data))) (path ++ ".bak") j) tmp none, false)
        else
          finishReplace (fsSet fs tmp (some (rewriteEntries src data))) path tmp backup := by
  have hs1 : fsSet fs tmp (some []) path = some src := by
    rw [fsSet_other fs tmp _ path (Ne.symm h1), hsrc]
  simp only [save_bank, hs1, fsSet_fsSet]

theorem finishReplace_snd (fs2 : FSState) (path tmp : String) (backup : Bool) :
    (finishReplace fs2 path tmp backup).2 = true := rfl

theorem finishReplace_tmp (fs2 : FSState) (path tmp : String) (backup : Bool) :
    (finishReplace fs2 path tmp backup).1 tmp = none := by
  simp [finishReplace]

theorem finishReplace_path (fs2 : FSState) (path tmp : String) (backup : Bool)
    (h1 : tmp ≠ path) (h2 : tmp ≠ path ++ ".bak") :
    (finishReplace fs2 path tmp backup).1 path = fs2 tmp := by
  simp only [finishReplace]
  rw [fsSet_other _ _ _ _ (Ne.symm h1), fsSet_same]
  split_ifs with hc
  · exact fsSet_other _ _ _ _ h2
  · rfl

theorem finishReplace_bak (fs2 : FSState) (path tmp : String) (backup : Bool)
    (h2 : tmp ≠ path ++ ".bak") :
    (finishReplace fs2 path tmp backup).1 (path ++ ".bak")
      = if backup ∧ (fs2 (path ++ ".bak")).isNone then fs2 path
        else fs2 (path ++ ".bak") := by
  simp only [finishReplace]
  rw [fsSet_other _ _ _ _ (Ne.symm h2), fsSet_other _ _ _ _ (Ne.symm (ne_bak path))]
  split_ifs with hc
  · rw [fsSet_same]
  · rfl

/-! ## Claim theorems: archive rewrite and save -/

/-- C2: rewriting archive `A` with serialized configuration bytes `data`
produces an archive whose configuration entry reads back as exactly `data`,
and whose non-configuration entries are identical — header metadata and
content — to those of `A` (well-formedness: a non-file member of a tar
archive stores no data bytes). -/
theorem rewrite_roundtrip (A : List Entry) (data : List Nat)
    (hwf : ∀ e ∈ A, e.kind ≠ EKind.file → e.content = []) :
    readConfigEntry (rewriteEntries A data) = some data
    ∧ (rewriteEntries A data).filter keepEntry = A.filter keepEntry := by
  constructor
  · have hg : getmember (rewriteEntries A data) ("./" ++ CONFIG_NAME)
        = some (newConfigEntry data) := by
      simp only [getmember, rewriteEntries, List.reverse_append]
      simp [List.find?, newConfigEntry]
    simp [readConfigEntry, hg, extractBytes, newConfigEntry]
  · simp only [rewriteEntries, List.filter_append]
    have h1 : List.filter keepEntry [newConfigEntry data] = [] := by
      simp [List.filter, keepEntry_newConfig]
    rw [h1, List.append_nil]
    have h2 : (A.filter keepEntry).map copyEntry = A.filter keepEntry := by
      rw [show A.filter keepEntry = (A.filter keepEntry).map id by simp]
      rw [List.map_map]
      apply List.map_congr_left
      intro e he
      simp only [Function.comp, id]
      exact copyEntry_eq_self e (hwf e (List.mem_of_mem_filter (by simpa using he)))
    rw [h2]
    apply List.filter_eq_self.mpr
    intro e he
    exact List.of_mem_filter he

/-- Witness for C2 on a two-member archive (one model file, one
directory). -/
theorem rewrite_roundtrip_witness :
    (∀ e ∈ [sampleEntry, sampleDir], e.kind ≠ EKind.file → e.content = [])
    ∧ (readConfigEntry (rewriteEntries [sampleEntry, sampleDir] [1, 2]) = some [1, 2]
      ∧ (rewriteEntries [sampleEntry, sampleDir] [1, 2]).filter keepEntry
          = [sampleEntry, sampleDir].filter keepEntry) :=
  ⟨by decide, rewrite_roundtrip [sampleEntry, sampleDir] [1, 2] (by decide)⟩

/-- C3: the rewritten archive lists the surviving (non-configuration)
entries in exactly the source order, then the new configuration entry as
the last member, named `./config.json`, with its declared size field equal
to the byte length of the replacement content. -/
theorem rewrite_order (src : List Entry) (data : List Nat) :
    (rewriteEntries src data).map Entry.name
      = (src.filter keepEntry).map Entry.name ++ ["./config.json"]
    ∧ (rewriteEntries src data).getLast? = some (newConfigEntry data)
    ∧ (newConfigEntry data).name = "./config.json"
    ∧ (newConfigEntry data).size = data.length
    ∧ (newConfigEntry data).content = data := by
  refine ⟨?_, ?_, rfl, rfl, rfl⟩
  · simp only [rewriteEntries, List.map_append, List.map_map]
    have hcomp : Entry.name ∘ copyEntry = Entry.name := funext copyEntry_name
    rw [hcomp]
    rfl
  · simp [rewriteEntries]

/-- C4 counterexample: the member named `.config.json` is neither
`config.json` nor `./config.json`, yet the rewrite drops it (and `load`
excludes it from the member listing), because `lstrip('./')` strips a
character set rather than one `./` prefix. -/
theorem hidden_config_skipped :
    hiddenConfigEntry.name ≠ "config.json"
    ∧ hiddenConfigEntry.name ≠ "./config.json"
    ∧ rewriteEntries [hiddenConfigEntry] [9] = [newConfigEntry [9]]
    ∧ assetsOf [hiddenConfigEntry] = [] := by
  refine ⟨by decide, by decide, rfl, rfl⟩

/-- C4 (amended): an entry is skipped by the rewrite — and excluded from
the `load` member listing — iff removing *all* leading `.` and `/`
characters from its name yields `config.json`; in particular the two
spec forms `config.json` and `./config.json` are both skipped, but so is
any other name that `lstrip('./')` collapses onto `config.json`. -/
theorem skip_rule (src : List Entry) (data : List Nat) :
    (rewriteEntries src data).dropLast
      = (src.filter (fun e =>
          decide (¬ e.name.data.dropWhile (fun c => c == '.' || c == '/') = CONFIG_NAME.data))).map copyEntry
    ∧ assetsOf src
      = (src.filter (fun e =>
          decide (¬ e.name.data.dropWhile (fun c => c == '.' || c == '/') = CONFIG_NAME.data))).map
          (fun m => { name := m.name, size := m.size, type := kindLabel m.kind })
    ∧ ∀ e : Entry, e.name = "config.json" ∨ e.name = "./config.json" →
        e.name.data.dropWhile (fun c => c == '.' || c == '/') = CONFIG_NAME.data := by
  have hpred : keepEntry = (fun e =>
      decide (¬ e.name.data.dropWhile (fun c => c == '.' || c == '/') = CONFIG_NAME.data)) := by
    funext e
    simp only [keepEntry, pyLstrip, isDotSlash]
    rw [decide_eq_decide, ne_eq, String.ext_iff]
    exact Iff.rfl
  refine ⟨?_, ?_, ?_⟩
  · rw [← hpred]
    simp [rewriteEntries]
  · rw [← hpred]
    rfl
  · intro e h
    rcases h with h | h <;> rw [h] <;> decide

/-- Witness for C4 (amended): the canonical written name `./config.json`
satisfies the skip condition. -/
theorem skip_rule_witness :
    ((newConfigEntry []).name = "config.json" ∨ (newConfigEntry []).name = "./config.json")
    ∧ (newConfigEntry []).name.data.dropWhile (fun c => c == '.' || c == '/') = CONFIG_NAME.data :=
  ⟨Or.inr rfl, (skip_rule [] []).2.2 (newConfigEntry []) (Or.inr rfl)⟩

/-- C1: for every bank, backup flag and injected failure — archive read
error, rewrite I/O error after any number of output operations, or
backup-copy error — a failed `save_bank` leaves the file at the bank
location byte-for-byte unchanged and removes the temporary file; the
temporary file is gone on every exit path, and the location holds the
rewritten archive exactly when the call succeeds. -/
theorem save_bank_atomic (fs : FSState) (path tmp : String) (data : List Nat)
    (backup : Bool) (fault : SaveFault)
    (h1 : tmp ≠ path) (h2 : tmp ≠ path ++ ".bak") :
    (save_bank fs path tmp data backup fault).1 tmp = none
    ∧ ((save_bank fs path tmp data backup fault).2 = false →
        (save_bank fs path tmp data backup fault).1 path = fs path)
    ∧ ((save_bank fs path tmp data backup fault).2 = true →
        (save_bank fs path tmp data backup fault).1 path
          = (fs path).map (fun src => rewriteEntries src data)) := by
  cases fault with
  | readErr =>
    rw [save_bank_readErr]
    exact ⟨fsSet_same _ _ _, fun _ => fsSet_other _ _ _ _ (Ne.symm h1),
      fun hcon => by simp at hcon⟩
  | writeErr k =>
    cases hsrc : fs path with
    | none =>
      rw [save_bank_missing fs path tmp data backup _ hsrc h1]
      exact ⟨fsSet_same _ _ _, fun _ => (fsSet_other _ _ _ _ (Ne.symm h1)).trans hsrc,
        fun hcon => by simp at hcon⟩
    | some src =>
      rw [save_bank_writeErr fs path tmp data backup k src h1 hsrc]
      exact ⟨fsSet_same _ _ _, fun _ => (fsSet_other _ _ _ _ (Ne.symm h1)).trans hsrc,
        fun hcon => by simp at hcon⟩
  | ok =>
    cases hsrc : fs path with
    | none =>
      rw [save_bank_missing fs path tmp data backup _ hsrc h1]
      exact ⟨fsSet_same _ _ _, fun _ => (fsSet_other _ _ _ _ (Ne.symm h1)).trans hsrc,
        fun hcon => by simp at hcon⟩
    | some src =>
      rw [save_bank_ok fs path tmp data backup src h1 hsrc]
      refine ⟨finishReplace_tmp _ _ _ _, ?_, ?_⟩
      · intro hcon
        rw [finishReplace_snd] at hcon
        exact absurd hcon (by simp)
      · intro _
        rw [finishReplace_path _ _ _ _ h1 h2, fsSet_same]
        rfl
  | backupErr j =>
    cases hsrc : fs path with
    | none =>
      rw [save_bank_missing fs path tmp data backup _ hsrc h1]
      exact ⟨fsSet_same _ _ _, fun _ => (fsSet_other _ _ _ _ (Ne.symm h1)).trans hsrc,
        fun hcon => by simp at hcon⟩
    | some src =>
      rw [save_bank_backupErr fs path tmp data backup j src h1 hsrc]
      split_ifs with hcond
      · refine ⟨fsSet_same _ _ _, fun _ => ?_, fun hcon => by simp at hcon⟩
        exact (fsSet_other _ _ _ _ (Ne.symm h1)).trans
          ((fsSet_other _ _ _ _ (ne_bak path)).trans
            ((fsSet_other _ _ _ _ (Ne.symm h1)).trans hsrc))
      · refine ⟨finishReplace_tmp _ _ _ _, ?_, ?_⟩
        · intro hcon
          rw [finishReplace_snd] at hcon
          exact absurd hcon (by simp)
        · intro _
          rw [finishReplace_path _ _ _ _ h1 h2, fsSet_same]
          rfl

/-- Witness for C1: a write failure after one output operation on the
sample bank. -/
theorem save_bank_atomic_witness :
    ("bank.npb.123.tmp" : String) ≠ "bank.npb"
    ∧ ("bank.npb.123.tmp" : String) ≠ "bank.npb" ++ ".bak"
    ∧ ((save_bank sampleFS "bank.npb" "bank.npb.123.tmp" [1] true (.writeErr 1)).1
          "bank.npb.123.tmp" = none
      ∧ ((save_bank sampleFS "bank.npb" "bank.npb.123.tmp" [1] true (.writeErr 1)).2 = false →
          (save_bank sampleFS "bank.npb" "bank.npb.123.tmp" [1] true (.writeErr 1)).1
            "bank.npb" = sampleFS "bank.npb")
      ∧ ((save_bank sampleFS "bank.npb" "bank.npb.123.tmp" [1] true (.writeErr 1)).2 = true →
          (save_bank sampleFS "bank.npb" "bank.npb.123.tmp" [1] true (.writeErr 1)).1
            "bank.npb" = (sampleFS "bank.npb").map (fun src => rewriteEntries src [1]))) :=
  ⟨by decide, by decide,
   save_bank_atomic sampleFS "bank.npb" "bank.npb.123.tmp" [1] true (.writeErr 1)
     (by decide) (by decide)⟩

/-- C5: saving twice in a row with backup enabled produces the backup file
once, holding the archive as it was before the first save; and a `.bak`
file that already exists is never overwritten by any later save, whatever
its outcome. -/
theorem save_backup_once (fs : FSState) (path tmp1 tmp2 : String) (d1 d2 : List Nat)
    (h1 : tmp1 ≠ path) (h2 : tmp1 ≠ path ++ ".bak")
    (h3 : tmp2 ≠ path) (h4 : tmp2 ≠ path ++ ".bak")
    (h0 : fs (path ++ ".bak") = none) :
    (save_bank fs path tmp1 d1 true .ok).1 (path ++ ".bak") = fs path
    ∧ (save_bank (save_bank fs path tmp1 d1 true .ok).1 path tmp2 d2 true .ok).1
        (path ++ ".bak") = fs path
    ∧ (∀ (g : FSState) (p t : String) (d : List Nat) (bk : Bool) (f : SaveFault)
        (b : List Entry), g (p ++ ".bak") = some b → t ≠ p → t ≠ p ++ ".bak" →
        (save_bank g p t d bk f).1 (p ++ ".bak") = some b) := by
  have hpres : ∀ (g : FSState) (p t : String) (d : List Nat) (bk : Bool) (f : SaveFault)
      (b : List Entry), g (p ++ ".bak") = some b → t ≠ p → t ≠ p ++ ".bak" →
      (save_bank g p t d bk f).1 (p ++ ".bak") = some b := by
    intro g p t d bk f b hb ht1 ht2
    cases f with
    | readErr =>
      rw [save_bank_readErr]
      exact (fsSet_other _ _ _ _ (Ne.symm ht2)).trans hb
    | writeErr k =>
      cases hsrc : g p with
      | none =>
        rw [save_bank_missing g p t d bk _ hsrc ht1]
        exact (fsSet_other _ _ _ _ (Ne.symm ht2)).trans hb
      | some src =>
        rw [save_bank_writeErr g p t d bk k src ht1 hsrc]
        exact (fsSet_other _ _ _ _ (Ne.symm ht2)).trans hb
    | ok =>
      cases hsrc : g p with
      | none =>
        rw [save_bank_missing g p t d bk _ hsrc ht1]
        exact (fsSet_other _ _ _ _ (Ne.symm ht2)).trans hb
      | some src =>
        rw [save_bank_ok g p t d bk src ht1 hsrc,
          finishReplace_bak _ _ _ _ ht2,
          fsSet_other _ _ _ _ (Ne.symm ht2), hb]
        simp
    | backupErr j =>
      cases hsrc : g p with
      | none =>
        rw [save_bank_missing g p t d bk _ hsrc ht1]
        exact (fsSet_other _ _ _ _ (Ne.symm ht2)).trans hb
      | some src =>
        rw [save_bank_backupErr g p t d bk j src ht1 hsrc]
        rw [fsSet_other _ _ _ _ (Ne.symm ht2), hb]
        simp only [Option.isSome_some, Option.isNone_some]
        rw [if_neg (by simp)]
        rw [finishReplace_bak _ _ _ _ ht2, fsSet_other _ _ _ _ (Ne.symm ht2), hb]
        simp
  have hfirst : (save_bank fs path tmp1 d1 true SaveFault.ok).1 (path ++ ".bak") = fs path := by
    cases hsrc : fs path with
    | none =>
      rw [save_bank_missing fs path tmp1 d1 true _ hsrc h1]
      exact (fsSet_other _ _ _ _ (Ne.symm h2)).trans h0
    | some src =>
      rw [save_bank_ok fs path tmp1 d1 true src h1 hsrc,
        finishReplace_bak _ _ _ _ h2,
        fsSet_other _ _ _ _ (Ne.symm h2), h0]
      simp only [Option.isNone_none]
      rw [if_pos (by simp)]
      rw [fsSet_other _ _ _ _ (Ne.symm h1), hsrc]
  refine ⟨hfirst, ?_, hpres⟩
  cases hsrc : fs path with
  | none =>
    have hfs' : (save_bank fs path tmp1 d1 true SaveFault.ok).1 path = none := by
      rw [save_bank_missing fs path tmp1 d1 true _ hsrc h1]
      exact (fsSet_other _ _ _ _ (Ne.symm h1)).trans hsrc
    rw [save_bank_missing _ path tmp2 d2 true _ hfs' h3]
    exact (fsSet_other _ _ _ _ (Ne.symm h4)).trans (hfirst.trans hsrc)
  | some src =>
    have hb : (save_bank fs path tmp1 d1 true SaveFault.ok).1 (path ++ ".bak") = some src := by
      rw [hfirst, hsrc]
    rw [hpres _ path tmp2 d2 true .ok src hb h3 h4]

/-- Witness for C5 on the sample bank with two fresh temporary names. -/
theorem save_backup_once_witness :
    ("t1.tmp" : String) ≠ "bank.npb"
    ∧ ("t1.tmp" : String) ≠ "bank.npb" ++ ".bak"
    ∧ ("t2.tmp" : String) ≠ "bank.npb"
    ∧ ("t2.tmp" : String) ≠ "bank.npb" ++ ".bak"
    ∧ sampleFS ("bank.npb" ++ ".bak") = none
    ∧ (save_bank sampleFS "bank.npb" "t1.tmp" [1] true .ok).1 ("bank.npb" ++ ".bak")
        = sampleFS "bank.npb" :=
  ⟨by decide, by decide, by decide, by decide, by decide,
   (save_backup_once sampleFS "bank.npb" "t1.tmp" "t2.tmp" [1] [2]
     (by decide) (by decide) (by decide) (by decide) (by decide)).1⟩
